import Mathlib

/-
  Verification of the Sandboxed Execution Supervisor
  (agent_gateway/mcp/executor_isolated.py and related modules).

  The embedding models:
  * a snippet language covering the Python constructs exercised by the
    specification's testable properties (name binding, name reference,
    printing, integer division, appending to the module search path);
  * the embedded worker program (run_code_with_reset and the request loop)
    from executor_isolated.py lines 57-137;
  * the supervisor state machine IsolatedPythonExecutor (lines 28-247):
    lazy start, restart-when-due, liveness check, execution counter,
    forced-GC check, request construction, send/receive with failure
    handling, and get_stats.
-/

namespace AgentGateway

/-! ## Snippet language

A snippet models the Python source text handed to the worker.  The worker
evaluates it with `exec(code, {}, local_vars)` where `local_vars` is a fresh
empty dict per call (executor_isolated.py lines 75-80). -/

inductive Expr where
  | lit (n : Int)
  | var (x : String)
  | add (a b : Expr)
  | div (a b : Expr)
deriving DecidableEq, Repr

inductive Stmt where
  /-- Assignment `x = e` into the call-local namespace. -/
  | bind (x : String) (e : Expr)
  /-- A bare expression statement that evaluates `e` and discards it. -/
  | exprStmt (e : Expr)
  /-- Model of `print(e)`: writes the decimal form of `e` and a newline to
  the redirected stdout buffer. -/
  | print (e : Expr)
  /-- Model of `sys.path.append(entry)`: mutates the worker-global module
  search path. -/
  | appendPath (entry : String)
deriving DecidableEq, Repr

abbrev Snippet := List Stmt

inductive EvalError where
  | nameError (x : String)
  | zeroDivision
deriving DecidableEq, Repr

/-- Model of `str(exc)` for the exceptions the snippet language can raise
(executor_isolated.py line 90). -/
def errMsg : EvalError → String
  | .nameError x => "NameError: name " ++ x ++ " is not defined"
  | .zeroDivision => "division by zero"

/-- Model of `traceback.format_exc()` (executor_isolated.py line 91). -/
def traceOf (e : EvalError) : String :=
  "Traceback (most recent call last): " ++ errMsg e

def lookupVar : List (String × Int) → String → Option Int
  | [], _ => none
  | (y, v) :: rest, x => if y = x then some v else lookupVar rest x

/-- Python dict assignment: overwrite in place keeping insertion order, or
append a new key at the end. -/
def setVar (l : List (String × Int)) (x : String) (v : Int) : List (String × Int) :=
  if l.any (fun p => p.1 = x) then
    l.map (fun p => if p.1 = x then (x, v) else p)
  else
    l ++ [(x, v)]

/-- Expression evaluation over the call-local bindings.  The globals dict is
empty (`exec(code, {}, local_vars)`), so name lookup consults only the
locals; a miss raises NameError.  `div` with divisor zero raises
ZeroDivisionError exactly as Python's `1 / 0` does. -/
def evalExpr (l : List (String × Int)) : Expr → Except EvalError Int
  | .lit n => .ok n
  | .var x =>
      match lookupVar l x with
      | some v => .ok v
      | none => .error (.nameError x)
  | .add a b => do
      let va ← evalExpr l a
      let vb ← evalExpr l b
      .ok (va + vb)
  | .div a b => do
      let va ← evalExpr l a
      let vb ← evalExpr l b
      if vb = 0 then .error .zeroDivision else .ok (va / vb)

/-- State threaded through one snippet evaluation: the fresh locals dict, the
captured stdout lines, and the entries the snippet appended to the
worker-global module search path during this call. -/
structure RunState where
  locals : List (String × Int)
  outLines : List String
  appended : List String
deriving DecidableEq, Repr

def execStmt (st : RunState) : Stmt → Except EvalError RunState
  | .bind x e =>
      match evalExpr st.locals e with
      | .ok v => .ok { st with locals := setVar st.locals x v }
      | .error err => .error err
  | .exprStmt e =>
      match evalExpr st.locals e with
      | .ok _ => .ok st
      | .error err => .error err
  | .print e =>
      match evalExpr st.locals e with
      | .ok v => .ok { st with outLines := st.outLines ++ [toString v] }
      | .error err => .error err
  | .appendPath entry => .ok { st with appended := st.appended ++ [entry] }

/-- Statement-by-statement evaluation; the first raised exception aborts the
snippet, keeping the state (output, path appends) accumulated so far. -/
def runStmts : Snippet → RunState → RunState × Option EvalError
  | [], st => (st, none)
  | stmt :: rest, st =>
      match execStmt st stmt with
      | .ok st' => runStmts rest st'
      | .error e => (st, some e)

/-! ## Wire responses -/

inductive JVal where
  | str (s : String)
  | num (n : Nat)
  | bool (b : Bool)
  | obj (m : List (String × String))
deriving DecidableEq, Repr

/-- A JSON object line, modelled as its ordered key/value pairs. -/
abbrev Response := List (String × JVal)

def keys (r : Response) : List String := r.map (fun p => p.1)

def lookupKey (k : String) : Response → Option JVal
  | [] => none
  | (k', v) :: rest => if k' = k then some v else lookupKey k rest

/-- Model of `StringIO` accumulation followed by `.strip()`: print-produced
lines joined by single newlines, with no trailing newline. -/
def joinLines (l : List String) : String := String.intercalate "\n" l

/-- The string map sent back as `locals` (executor_isolated.py line 85). -/
def localsRepr (l : List (String × Int)) : List (String × String) :=
  l.map (fun p => (p.1, toString p.2))

/-- The success or failure record built by `run_code_with_reset`
(executor_isolated.py lines 82-94). -/
def respFor (st : RunState) (err : Option EvalError) : Response :=
  match err with
  | none =>
      [("stdout", .str (joinLines st.outLines)),
       ("stderr", .str ""),
       ("locals", .obj (localsRepr st.locals))]
  | some e =>
      [("error", .str (errMsg e)),
       ("traceback", .str (traceOf e)),
       ("stdout", .str (joinLines st.outLines)),
       ("stderr", .str "")]

/-- Model of `run_code_with_reset` (executor_isolated.py lines 65-111) with
`cleanup_modules = False` (the deployed configuration): evaluates the snippet
in a fresh namespace against the worker's search path, builds the success or
failure record, and in the `finally` block pops the search path down to the
length recorded on entry. -/
def runCodeWithReset (code : Snippet) (path : List String) :
    Response × List String :=
  let r := runStmts code ⟨[], [], []⟩
  let full := path ++ r.1.appended
  (respFor r.1 r.2,
   if path.length < full.length then full.take path.length else full)

/-! ## Requests -/

/-- The request object built by `IsolatedPythonExecutor.execute`
(executor_isolated.py lines 212-217): `input` is only included when the
supplied user input is truthy, i.e. neither `None` nor the empty string. -/
structure Request where
  code : Snippet
  cleanupModules : Bool
  input : Option String
deriving DecidableEq, Repr

def buildRequest (code : Snippet) (userInput : Option String) (cm : Bool) :
    Request :=
  { code := code
    cleanupModules := cm
    input :=
      match userInput with
      | some s => if s = "" then none else some s
      | none => none }

/-- The ordered key set of the serialized request line. -/
def requestKeys (r : Request) : List String :=
  ["code", "cleanup_modules"] ++
    (match r.input with
     | some _ => ["input"]
     | none => [])

/-! ## Worker process -/

/-- One live worker process: its identity, liveness, the worker-global
module search path, and the list of snippets it has evaluated. -/
structure Worker where
  pid : Nat
  alive : Bool
  sysPath : List String
  history : List Snippet
deriving DecidableEq, Repr

/-- One iteration of the embedded worker's request loop
(executor_isolated.py lines 117-137): empty code short-circuits to the bare
error record, otherwise the snippet is evaluated with state reset. -/
def workerHandle (req : Request) (w : Worker) : Response × Worker :=
  if req.code = [] then
    ([("error", .str "No code provided")], w)
  else
    let (resp, path') := runCodeWithReset req.code w.sysPath
    (resp, { w with sysPath := path', history := w.history ++ [req.code] })

/-- The net effect of one handled request on the worker: the search path is
restored, so only the evaluation history grows (and only for nonempty code). -/
def workerUpd (code : Snippet) (w : Worker) : Worker :=
  if code = [] then w else { w with history := w.history ++ [code] }

/-! ## Supervisor -/

/-- The state of `IsolatedPythonExecutor` (executor_isolated.py lines
31-49): `inited` models `_initialized`, `executionCount` models
`_execution_count`.  `initPath` is the search path a freshly started worker
observes; `nextPid` supplies fresh process identities. -/
structure ExecutorState where
  process : Option Worker
  inited : Bool
  executionCount : Nat
  maxExecutions : Nat
  cleanupModules : Bool
  forceGcInterval : Nat
  initPath : List String
  nextPid : Nat
deriving DecidableEq, Repr

def freshExecutor (maxE gcI : Nat) (cm : Bool) (initPath : List String) :
    ExecutorState :=
  { process := none
    inited := false
    executionCount := 0
    maxExecutions := maxE
    cleanupModules := cm
    forceGcInterval := gcI
    initPath := initPath
    nextPid := 0 }

/-- Launch a fresh worker process (the `subprocess.Popen` part of
`_start_process`, lines 147-155). -/
def spawnWorker (s : ExecutorState) : ExecutorState :=
  { s with
    process := some ⟨s.nextPid, true, s.initPath, []⟩
    nextPid := s.nextPid + 1 }

/-- A completed successful `_start_process` (lines 147-167): a fresh live
worker, `_initialized = True`, `_execution_count = 0`. -/
def startOk (s : ExecutorState) : ExecutorState :=
  { spawnWorker s with inited := true, executionCount := 0 }

/-- The worker process dying externally between calls (so that the next
`poll()` reports an exit code). -/
def killWorker (s : ExecutorState) : ExecutorState :=
  { s with process := s.process.map (fun w => { w with alive := false }) }

/-- Lazy start on first use (execute, lines 191-192). -/
def ensureStarted (s : ExecutorState) : ExecutorState :=
  if s.inited then s else startOk s

/-- Restart when the execution budget is exhausted (execute, lines 195-196;
`_restart_process` kills the old worker and starts a fresh one). -/
def maybeRestart (s : ExecutorState) : ExecutorState :=
  if s.maxExecutions ≤ s.executionCount then startOk s else s

/-- Liveness probe and transparent restart (execute, lines 199-202). -/
def ensureAlive (s : ExecutorState) : ExecutorState :=
  match s.process with
  | some w => if w.alive then s else startOk s
  | none => startOk s

/-- Steps 1-4 of `execute`: lazy start, restart if due, liveness check,
increment the execution counter (lines 191-205). -/
def preCall (s : ExecutorState) : ExecutorState :=
  let t := ensureAlive (maybeRestart (ensureStarted s))
  { t with executionCount := t.executionCount + 1 }

/-- Per-call environment: which pipe faults occur during this round trip. -/
structure CallEnv where
  writeFails : Bool
  readEof : Bool
deriving DecidableEq, Repr

def benign : CallEnv := ⟨false, false⟩

inductive ExecError where
  /-- The unguarded `self._execution_count % self._force_gc_interval` on
  line 208 raising ZeroDivisionError when the interval is 0. -/
  | gcZeroDivision
  /-- The `RuntimeError("Execution failed: ...")` raised on lines 235-238
  when the pipe write fails or the response read returns end of file. -/
  | executionFailed
deriving DecidableEq, Repr

/-- Model of `IsolatedPythonExecutor.execute` (lines 187-238).  The result
dict gets `exit_code` and `execution_count` appended (lines 231-232); on a
send/receive failure `_initialized` is cleared and a supervisor-level error
is raised (lines 235-238) without any retry of the request. -/
def execute (s : ExecutorState) (code : Snippet) (userInput : Option String)
    (env : CallEnv) : ExecutorState × Except ExecError Response :=
  let t := preCall s
  if t.forceGcInterval = 0 then
    (t, .error .gcZeroDivision)
  else if env.writeFails then
    ({ t with inited := false }, .error .executionFailed)
  else
    match t.process with
    | none => ({ t with inited := false }, .error .executionFailed)
    | some w =>
        let req := buildRequest code userInput t.cleanupModules
        let (resp, w') := workerHandle req w
        if env.readEof then
          ({ t with process := some w', inited := false }, .error .executionFailed)
        else
          ({ t with process := some w' },
           .ok (resp ++ [("exit_code", JVal.num 0),
                         ("execution_count", JVal.num t.executionCount)]))

/-- The executor state after `k` successive benign calls, the `i`-th call
executing snippet `f i`. -/
def applyCalls (s : ExecutorState) (f : Nat → Snippet) : Nat → ExecutorState
  | 0 => s
  | k + 1 => (execute (applyCalls s f k) (f k) none benign).1

def pidOf (s : ExecutorState) : Option Nat := s.process.map (fun w => w.pid)
def aliveOf (s : ExecutorState) : Option Bool := s.process.map (fun w => w.alive)
def pathOf (s : ExecutorState) : Option (List String) := s.process.map (fun w => w.sysPath)
def historyOf (s : ExecutorState) : Option (List Snippet) := s.process.map (fun w => w.history)

/-- Model of `_process is not None and _process.poll() is None` (line 246). -/
def processAlive (s : ExecutorState) : Bool :=
  match s.process with
  | some w => w.alive
  | none => false

/-- Model of `IsolatedPythonExecutor.get_stats` (lines 240-247): the exact
dict the source constructs, in construction order. -/
def getStats (s : ExecutorState) : Response :=
  [("execution_count", .num s.executionCount),
   ("max_executions", .num s.maxExecutions),
   ("cleanup_modules", .bool s.cleanupModules),
   ("process_alive", .bool (processAlive s))]

/-! ## Startup handshake -/

/-- Model of `str.strip()` on the sentinel line: drop leading and trailing
whitespace. -/
def stripLine (s : String) : String :=
  ⟨((s.data.dropWhile Char.isWhitespace).reverse.dropWhile
      Char.isWhitespace).reverse⟩


/-- What the blocking `readline()` on the worker's stdout can encounter
during startup (lines 157-158): a line, end of file, or no data at all
(the stream stays open and nothing arrives). -/
inductive HandshakeInput where
  | line (s : String)
  | eof
  | silence
deriving DecidableEq, Repr

inductive StartResult where
  | started (s : ExecutorState)
  | startupFailed (s : ExecutorState)
  | blocked
deriving DecidableEq, Repr

def StartResult.isFailed : StartResult → Bool
  | .startupFailed _ => true
  | _ => false

/-- Model of `_start_process` (lines 147-167): spawn, then block reading one
line; a stripped line equal to READY completes startup, any other line
(end of file reads as the empty string) raises before `_initialized` is set.
When no line ever arrives the blocking read never returns: there is no
timeout on this read in the source. -/
def startProcess (s : ExecutorState) (h : HandshakeInput) : StartResult :=
  let s' := spawnWorker s
  match h with
  | .line l =>
      if stripLine l = "READY" then
        .started { s' with inited := true, executionCount := 0 }
      else
        .startupFailed s'
  | .eof => .startupFailed s'
  | .silence => .blocked

/-- The worker's response as a function of the snippet alone. -/
def responseOf (code : Snippet) : Response :=
  if code = [] then [("error", .str "No code provided")]
  else (runCodeWithReset code []).1

/-- Modelled from the spec: the forced-GC decision
`shouldForceGc = forcedGcEveryN > 0 and executionCount mod forcedGcEveryN == 0`,
with 0 meaning disabled.  The source (line 208) omits the `> 0` guard. -/
def shouldForceGcSpec (n count : Nat) : Bool :=
  decide (0 < n) && decide (count % n = 0)

def constCall : Nat → Snippet := fun _ => [Stmt.bind "a" (Expr.lit 1)]

def appendCall : Nat → Snippet := fun _ => [Stmt.appendPath "q"]

/-- Whether a call's outcome is a completed round trip (no supervisor-level
exception). -/
def isOkE : Except ExecError Response → Bool
  | .ok _ => true
  | .error _ => false

/-- Field access on a completed call's returned record. -/
def okLookup (k : String) : Except ExecError Response → Option JVal
  | .ok r => lookupKey k r
  | .error _ => none

/-- Invariant holding after `k` benign calls on a fresh executor while the
restart budget has not been exhausted: same worker (pid 0), counter at `k`. -/
def SteadyInv (N gcI : Nat) (ip : List String) (k : Nat)
    (s : ExecutorState) : Prop :=
  s.inited = true ∧ s.executionCount = k ∧ s.nextPid = 1 ∧
  s.maxExecutions = N ∧ s.forceGcInterval = gcI ∧ s.initPath = ip ∧
  ∃ w, s.process = some w ∧ w.pid = 0 ∧ w.alive = true ∧ w.sysPath = ip

/-- Invariant preserved by benign calls across restarts: a live worker whose
search path equals the fresh-start search path. -/
def PathInv (N gcI : Nat) (ip : List String) (s : ExecutorState) : Prop :=
  s.inited = true ∧ s.executionCount ≤ N ∧
  s.maxExecutions = N ∧ s.forceGcInterval = gcI ∧ s.initPath = ip ∧
  ∃ w, s.process = some w ∧ w.alive = true ∧ w.sysPath = ip

/-! ## Worker-level lemmas -/

theorem take_append_self (p ap : List String) : (p ++ ap).take p.length = p := by
  induction p with
  | nil => rfl
  | cons a rest ih => simp [ih]

/-- The finally block restores the search path exactly: the snippet can only
append entries, and the pop loop removes precisely those. -/
theorem runCodeWithReset_path (code : Snippet) (path : List String) :
    (runCodeWithReset code path).2 = path := by
  unfold runCodeWithReset
  rcases h : (runStmts code ⟨[], [], []⟩).1.appended with _ | ⟨a, ap⟩
  · simp [h]
  · simp only [h]
    rw [if_pos (by simp)]
    exact take_append_self path (a :: ap)

/-- The response record depends only on the snippet, never on the worker's
search path: the fresh-namespace evaluation starts from the same empty state
every call. -/
theorem runCodeWithReset_resp (code : Snippet) (path : List String) :
    (runCodeWithReset code path).1 = (runCodeWithReset code []).1 := rfl

theorem workerHandle_eq (req : Request) (w : Worker) :
    workerHandle req w =
      (responseOf req.code,
       { workerUpd req.code w with sysPath := w.sysPath }) := by
  unfold workerHandle responseOf workerUpd
  by_cases h : req.code = []
  · simp [h]
  · simp only [h, if_neg h, ite_false]
    rw [runCodeWithReset_resp, runCodeWithReset_path]

@[simp] theorem workerUpd_pid (c : Snippet) (w : Worker) :
    (workerUpd c w).pid = w.pid := by
  unfold workerUpd; split <;> rfl

@[simp] theorem workerUpd_alive (c : Snippet) (w : Worker) :
    (workerUpd c w).alive = w.alive := by
  unfold workerUpd; split <;> rfl

@[simp] theorem workerUpd_sysPath (c : Snippet) (w : Worker) :
    (workerUpd c w).sysPath = w.sysPath := by
  unfold workerUpd; split <;> rfl

/-! ## Supervisor bookkeeping lemmas -/

@[simp] theorem startOk_gc (s : ExecutorState) :
    (startOk s).forceGcInterval = s.forceGcInterval := rfl
@[simp] theorem startOk_max (s : ExecutorState) :
    (startOk s).maxExecutions = s.maxExecutions := rfl
@[simp] theorem startOk_cm (s : ExecutorState) :
    (startOk s).cleanupModules = s.cleanupModules := rfl
@[simp] theorem startOk_initPath (s : ExecutorState) :
    (startOk s).initPath = s.initPath := rfl
@[simp] theorem startOk_inited (s : ExecutorState) :
    (startOk s).inited = true := rfl
@[simp] theorem startOk_count (s : ExecutorState) :
    (startOk s).executionCount = 0 := rfl
@[simp] theorem startOk_process (s : ExecutorState) :
    (startOk s).process = some ⟨s.nextPid, true, s.initPath, []⟩ := rfl
@[simp] theorem startOk_nextPid (s : ExecutorState) :
    (startOk s).nextPid = s.nextPid + 1 := rfl

theorem ensureStarted_gc (s : ExecutorState) :
    (ensureStarted s).forceGcInterval = s.forceGcInterval := by
  unfold ensureStarted; split <;> rfl
theorem maybeRestart_gc (s : ExecutorState) :
    (maybeRestart s).forceGcInterval = s.forceGcInterval := by
  unfold maybeRestart; split <;> rfl
theorem ensureAlive_gc (s : ExecutorState) :
    (ensureAlive s).forceGcInterval = s.forceGcInterval := by
  unfold ensureAlive
  split
  · split <;> rfl
  · rfl

@[simp] theorem preCall_gc (s : ExecutorState) :
    (preCall s).forceGcInterval = s.forceGcInterval := by
  unfold preCall
  simp [ensureAlive_gc, maybeRestart_gc, ensureStarted_gc]

theorem ensureStarted_max (s : ExecutorState) :
    (ensureStarted s).maxExecutions = s.maxExecutions := by
  unfold ensureStarted; split <;> rfl
theorem maybeRestart_max (s : ExecutorState) :
    (maybeRestart s).maxExecutions = s.maxExecutions := by
  unfold maybeRestart; split <;> rfl
theorem ensureAlive_max (s : ExecutorState) :
    (ensureAlive s).maxExecutions = s.maxExecutions := by
  unfold ensureAlive
  split
  · split <;> rfl
  · rfl

@[simp] theorem preCall_max (s : ExecutorState) :
    (preCall s).maxExecutions = s.maxExecutions := by
  unfold preCall
  simp [ensureAlive_max, maybeRestart_max, ensureStarted_max]

theorem ensureStarted_cm (s : ExecutorState) :
    (ensureStarted s).cleanupModules = s.cleanupModules := by
  unfold ensureStarted; split <;> rfl
theorem maybeRestart_cm (s : ExecutorState) :
    (maybeRestart s).cleanupModules = s.cleanupModules := by
  unfold maybeRestart; split <;> rfl
theorem ensureAlive_cm (s : ExecutorState) :
    (ensureAlive s).cleanupModules = s.cleanupModules := by
  unfold ensureAlive
  split
  · split <;> rfl
  · rfl

@[simp] theorem preCall_cm (s : ExecutorState) :
    (preCall s).cleanupModules = s.cleanupModules := by
  unfold preCall
  simp [ensureAlive_cm, maybeRestart_cm, ensureStarted_cm]

theorem ensureStarted_initPath (s : ExecutorState) :
    (ensureStarted s).initPath = s.initPath := by
  unfold ensureStarted; split <;> rfl
theorem maybeRestart_initPath (s : ExecutorState) :
    (maybeRestart s).initPath = s.initPath := by
  unfold maybeRestart; split <;> rfl
theorem ensureAlive_initPath (s : ExecutorState) :
    (ensureAlive s).initPath = s.initPath := by
  unfold ensureAlive
  split
  · split <;> rfl
  · rfl

@[simp] theorem preCall_initPath (s : ExecutorState) :
    (preCall s).initPath = s.initPath := by
  unfold preCall
  simp [ensureAlive_initPath, maybeRestart_initPath, ensureStarted_initPath]

theorem ensureStarted_inited (s : ExecutorState) :
    (ensureStarted s).inited = true := by
  unfold ensureStarted; split <;> simp_all

theorem maybeRestart_inited (s : ExecutorState) (h : s.inited = true) :
    (maybeRestart s).inited = true := by
  unfold maybeRestart; split <;> simp_all

theorem ensureAlive_inited (s : ExecutorState) (h : s.inited = true) :
    (ensureAlive s).inited = true := by
  unfold ensureAlive
  split
  · split <;> simp_all
  · simp

theorem preCall_inited (s : ExecutorState) : (preCall s).inited = true := by
  unfold preCall
  exact ensureAlive_inited _ (maybeRestart_inited _ (ensureStarted_inited s))

theorem preCall_process_some (s : ExecutorState) :
    ∃ w, (preCall s).process = some w ∧ w.alive = true := by
  unfold preCall ensureAlive
  rcases h : (maybeRestart (ensureStarted s)).process with _ | w
  · refine ⟨⟨(maybeRestart (ensureStarted s)).nextPid, true,
      (maybeRestart (ensureStarted s)).initPath, []⟩, ?_, rfl⟩
    simp [h]
  · by_cases ha : w.alive
    · exact ⟨w, by simp [h, ha], ha⟩
    · refine ⟨⟨(maybeRestart (ensureStarted s)).nextPid, true,
        (maybeRestart (ensureStarted s)).initPath, []⟩, ?_, rfl⟩
      simp [h, ha]

/-- Steady state: already started, worker alive, restart not due — the
pre-call phase only increments the counter. -/
theorem preCall_steady (s : ExecutorState) (w : Worker)
    (h1 : s.inited = true) (hw : s.process = some w) (hal : w.alive = true)
    (h3 : s.executionCount < s.maxExecutions) :
    preCall s = { s with executionCount := s.executionCount + 1 } := by
  have e1 : ensureStarted s = s := by unfold ensureStarted; simp [h1]
  have e2 : maybeRestart s = s := by
    unfold maybeRestart; rw [if_neg (by omega)]
  have e3 : ensureAlive s = s := by
    unfold ensureAlive; rw [hw]; simp [hal]
  unfold preCall
  rw [e1, e2, e3]

/-- First use: lazy start, then the counter goes to 1. -/
theorem preCall_fresh (s : ExecutorState)
    (h1 : s.inited = false) (hmax : 1 ≤ s.maxExecutions) :
    preCall s = { startOk s with executionCount := 1 } := by
  have e1 : ensureStarted s = startOk s := by
    unfold ensureStarted; simp [h1]
  have e2 : maybeRestart (startOk s) = startOk s := by
    unfold maybeRestart
    rw [if_neg (by simp; omega)]
  have e3 : ensureAlive (startOk s) = startOk s := by
    unfold ensureAlive; rw [startOk_process]; simp
  unfold preCall
  rw [e1, e2, e3]
  rfl

/-- Restart due: the execution budget is exhausted, so the worker is
replaced and the counter restarts at 1. -/
theorem preCall_restart (s : ExecutorState)
    (h1 : s.inited = true) (h2 : s.maxExecutions ≤ s.executionCount) :
    preCall s = { startOk s with executionCount := 1 } := by
  have e1 : ensureStarted s = s := by unfold ensureStarted; simp [h1]
  have e2 : maybeRestart s = startOk s := by
    unfold maybeRestart; rw [if_pos h2]
  have e3 : ensureAlive (startOk s) = startOk s := by
    unfold ensureAlive; rw [startOk_process]; simp
  unfold preCall
  rw [e1, e2, e3]
  rfl

/-- Dead worker detected by the liveness probe: transparent restart, counter
restarts at 1. -/
theorem preCall_dead (s : ExecutorState) (w : Worker)
    (h1 : s.inited = true) (hw : s.process = some w) (hal : w.alive = false)
    (h3 : s.executionCount < s.maxExecutions) :
    preCall s = { startOk s with executionCount := 1 } := by
  have e1 : ensureStarted s = s := by unfold ensureStarted; simp [h1]
  have e2 : maybeRestart s = s := by
    unfold maybeRestart; rw [if_neg (by omega)]
  have e3 : ensureAlive s = startOk s := by
    unfold ensureAlive; rw [hw]; simp [hal]
  unfold preCall
  rw [e1, e2, e3]
  rfl

@[simp] theorem buildRequest_code (c : Snippet) (i : Option String) (b : Bool) :
    (buildRequest c i b).code = c := rfl

/-- A benign call (no pipe fault, GC interval nonzero) always completes the
round trip: the parsed worker response comes back with `exit_code` and
`execution_count` appended, and the worker state only accumulates history. -/
theorem execute_benign_eq (s : ExecutorState) (c : Snippet)
    (inp : Option String) (w : Worker)
    (hgc : s.forceGcInterval ≠ 0) (hw : (preCall s).process = some w) :
    execute s c inp benign =
      ({ preCall s with process := some { workerUpd c w with sysPath := w.sysPath } },
       .ok (responseOf c ++
         [("exit_code", JVal.num 0),
          ("execution_count", JVal.num (preCall s).executionCount)])) := by
  unfold execute benign
  simp only [preCall_gc]
  rw [if_neg hgc]
  simp [hw, workerHandle_eq]

/-! ## Response shape and failure-path lemmas -/

/-- Every worker response line is one of exactly three shapes: the success
record, the evaluation-failure record, or the bare error record produced for
empty code. -/
theorem responseOf_cases (c : Snippet) :
    (∃ o l, responseOf c =
        [("stdout", .str o), ("stderr", .str ""), ("locals", .obj l)]) ∨
    (∃ e o, responseOf c =
        [("error", .str (errMsg e)), ("traceback", .str (traceOf e)),
         ("stdout", .str o), ("stderr", .str "")]) ∨
    responseOf c = [("error", .str "No code provided")] := by
  unfold responseOf
  by_cases h : c = []
  · right; right; simp [h]
  · rw [if_neg h]
    unfold runCodeWithReset
    rcases he : (runStmts c ⟨[], [], []⟩).2 with _ | e
    · left
      exact ⟨joinLines (runStmts c ⟨[], [], []⟩).1.outLines,
             localsRepr (runStmts c ⟨[], [], []⟩).1.locals,
             by simp [respFor, he]⟩
    · right; left
      exact ⟨e, joinLines (runStmts c ⟨[], [], []⟩).1.outLines,
             by simp [respFor, he]⟩

theorem lookupKey_append (k : String) (r m : Response)
    (h : lookupKey k r = none) :
    lookupKey k (r ++ m) = lookupKey k m := by
  induction r with
  | nil => simp
  | cons p rest ih =>
      rcases p with ⟨k', v⟩
      by_cases hk : k' = k
      · simp [lookupKey, hk] at h
      · simp only [List.cons_append, lookupKey, if_neg hk] at h ⊢
        exact ih h

/-- Neither metadata key occurs in a worker response record. -/
theorem responseOf_no_meta (c : Snippet) :
    lookupKey "exit_code" (responseOf c) = none ∧
    lookupKey "execution_count" (responseOf c) = none := by
  rcases responseOf_cases c with ⟨o, l, h⟩ | ⟨e, o, h⟩ | h <;>
    rw [h] <;> constructor <;> simp [lookupKey]

/-- The supervisor's metadata fields are recoverable from the returned
record. -/
theorem lookupKey_meta (c : Snippet) (k : Nat) :
    lookupKey "execution_count"
      (responseOf c ++
        [("exit_code", JVal.num 0), ("execution_count", JVal.num k)]) =
      some (.num k) ∧
    lookupKey "exit_code"
      (responseOf c ++
        [("exit_code", JVal.num 0), ("execution_count", JVal.num k)]) =
      some (.num 0) := by
  obtain ⟨h1, h2⟩ := responseOf_no_meta c
  constructor
  · rw [lookupKey_append _ _ _ h2]; simp [lookupKey]
  · rw [lookupKey_append _ _ _ h1]; simp [lookupKey]

/-- With a zero GC interval the unguarded modulus on line 208 raises before
the request is even sent. -/
theorem execute_gcZero (s : ExecutorState) (c : Snippet) (inp : Option String)
    (env : CallEnv) (hgc : s.forceGcInterval = 0) :
    execute s c inp env = (preCall s, .error .gcZeroDivision) := by
  unfold execute
  simp [preCall_gc, hgc]

/-- A failed pipe write: the handle is marked dead (`_initialized = False`)
and the call raises; the worker state is untouched, so the request was never
delivered, let alone retried. -/
theorem execute_writeFails (s : ExecutorState) (c : Snippet)
    (inp : Option String) (env : CallEnv)
    (hgc : s.forceGcInterval ≠ 0) (hwf : env.writeFails = true) :
    execute s c inp env =
      ({ preCall s with inited := false }, .error .executionFailed) := by
  unfold execute
  simp only [preCall_gc]
  rw [if_neg hgc]
  simp [hwf]

/-- End of file on the response read: the snippet was evaluated once, but
the handle is marked dead and the call raises; no retry happens. -/
theorem execute_readEof (s : ExecutorState) (c : Snippet)
    (inp : Option String) (env : CallEnv) (w : Worker)
    (hgc : s.forceGcInterval ≠ 0) (hwf : env.writeFails = false)
    (hre : env.readEof = true) (hw : (preCall s).process = some w) :
    execute s c inp env =
      ({ preCall s with
          process := some { workerUpd c w with sysPath := w.sysPath },
          inited := false },
       .error .executionFailed) := by
  unfold execute
  simp only [preCall_gc]
  rw [if_neg hgc]
  simp [hwf, hre, hw, workerHandle_eq]

/-! ## Whole-call step lemmas (benign environment) -/

theorem execute_steady (s : ExecutorState) (w : Worker) (c : Snippet)
    (inp : Option String)
    (h1 : s.inited = true) (hw : s.process = some w) (hal : w.alive = true)
    (h3 : s.executionCount < s.maxExecutions) (hgc : s.forceGcInterval ≠ 0) :
    (execute s c inp benign).1 =
      { s with executionCount := s.executionCount + 1,
               process := some { workerUpd c w with sysPath := w.sysPath } } ∧
    (execute s c inp benign).2 =
      .ok (responseOf c ++
        [("exit_code", JVal.num 0),
         ("execution_count", JVal.num (s.executionCount + 1))]) := by
  have hp := preCall_steady s w h1 hw hal h3
  have hww : (preCall s).process = some w := by rw [hp]; simpa using hw
  have he := execute_benign_eq s c inp w hgc hww
  rw [he]
  constructor
  · rw [hp]
  · rw [hp]

theorem execute_fresh (s : ExecutorState) (c : Snippet) (inp : Option String)
    (h1 : s.inited = false) (hmax : 1 ≤ s.maxExecutions)
    (hgc : s.forceGcInterval ≠ 0) :
    (execute s c inp benign).1 =
      { startOk s with
          executionCount := 1,
          process := some (workerUpd c ⟨s.nextPid, true, s.initPath, []⟩) } ∧
    (execute s c inp benign).2 =
      .ok (responseOf c ++
        [("exit_code", JVal.num 0), ("execution_count", JVal.num 1)]) := by
  have hp := preCall_fresh s h1 hmax
  have hww : (preCall s).process = some ⟨s.nextPid, true, s.initPath, []⟩ := by
    rw [hp]; simp
  have he := execute_benign_eq s c inp _ hgc hww
  rw [he]
  constructor
  · rw [hp]
    unfold workerUpd
    split <;> rfl
  · rw [hp]

theorem execute_restart (s : ExecutorState) (c : Snippet) (inp : Option String)
    (h1 : s.inited = true) (h2 : s.maxExecutions ≤ s.executionCount)
    (hgc : s.forceGcInterval ≠ 0) :
    (execute s c inp benign).1 =
      { startOk s with
          executionCount := 1,
          process := some (workerUpd c ⟨s.nextPid, true, s.initPath, []⟩) } ∧
    (execute s c inp benign).2 =
      .ok (responseOf c ++
        [("exit_code", JVal.num 0), ("execution_count", JVal.num 1)]) := by
  have hp := preCall_restart s h1 h2
  have hww : (preCall s).process = some ⟨s.nextPid, true, s.initPath, []⟩ := by
    rw [hp]; simp
  have he := execute_benign_eq s c inp _ hgc hww
  rw [he]
  constructor
  · rw [hp]
    unfold workerUpd
    split <;> rfl
  · rw [hp]

theorem execute_dead (s : ExecutorState) (w : Worker) (c : Snippet)
    (inp : Option String)
    (h1 : s.inited = true) (hw : s.process = some w) (hal : w.alive = false)
    (h3 : s.executionCount < s.maxExecutions) (hgc : s.forceGcInterval ≠ 0) :
    (execute s c inp benign).1 =
      { startOk s with
          executionCount := 1,
          process := some (workerUpd c ⟨s.nextPid, true, s.initPath, []⟩) } ∧
    (execute s c inp benign).2 =
      .ok (responseOf c ++
        [("exit_code", JVal.num 0), ("execution_count", JVal.num 1)]) := by
  have hp := preCall_dead s w h1 hw hal h3
  have hww : (preCall s).process = some ⟨s.nextPid, true, s.initPath, []⟩ := by
    rw [hp]; simp
  have he := execute_benign_eq s c inp _ hgc hww
  rw [he]
  constructor
  · rw [hp]
    unfold workerUpd
    split <;> rfl
  · rw [hp]

/-! ## Multi-call invariants -/

theorem steadyRun (N gcI : Nat) (cm : Bool) (ip : List String)
    (f : Nat → Snippet) (hN : 1 ≤ N) (hgc : gcI ≠ 0) :
    ∀ k, 1 ≤ k → k ≤ N →
      SteadyInv N gcI ip k (applyCalls (freshExecutor N gcI cm ip) f k) := by
  intro k
  induction k with
  | zero => intro h _; omega
  | succ k ih =>
      intro _ hk
      by_cases hk0 : k = 0
      · subst hk0
        have h := execute_fresh (freshExecutor N gcI cm ip) (f 0) none
          rfl hN hgc
        show SteadyInv N gcI ip 1
          (execute (freshExecutor N gcI cm ip) (f 0) none benign).1
        rw [h.1]
        refine ⟨rfl, rfl, rfl, rfl, rfl, rfl,
          workerUpd (f 0) ⟨0, true, ip, []⟩, rfl, ?_, ?_, ?_⟩
        · simp
        · simp
        · simp
      · have hk1 : 1 ≤ k := by omega
        have hkN : k ≤ N := by omega
        obtain ⟨hi, hc, hn, hm, hg, hp, w, hw, hpid, hal, hpath⟩ := ih hk1 hkN
        have hlt : (applyCalls (freshExecutor N gcI cm ip) f k).executionCount <
            (applyCalls (freshExecutor N gcI cm ip) f k).maxExecutions := by
          rw [hc, hm]; omega
        have hgc' : (applyCalls (freshExecutor N gcI cm ip) f k).forceGcInterval ≠ 0 := by
          rw [hg]; exact hgc
        have h := execute_steady _ w (f k) none hi hw hal hlt hgc'
        show SteadyInv N gcI ip (k + 1)
          (execute (applyCalls (freshExecutor N gcI cm ip) f k) (f k) none benign).1
        rw [h.1]
        refine ⟨hi, ?_, hn, hm, hg, hp,
          { workerUpd (f k) w with sysPath := w.sysPath }, rfl, ?_, ?_, ?_⟩
        · show (applyCalls (freshExecutor N gcI cm ip) f k).executionCount + 1 = k + 1
          rw [hc]
        · simpa using hpid
        · simpa using hal
        · exact hpath

theorem pathRun (N gcI : Nat) (cm : Bool) (ip : List String)
    (f : Nat → Snippet) (hN : 1 ≤ N) (hgc : gcI ≠ 0) :
    ∀ k, PathInv N gcI ip (applyCalls (freshExecutor N gcI cm ip) f (k + 1)) := by
  intro k
  induction k with
  | zero =>
      have h := execute_fresh (freshExecutor N gcI cm ip) (f 0) none rfl hN hgc
      show PathInv N gcI ip
        (execute (freshExecutor N gcI cm ip) (f 0) none benign).1
      rw [h.1]
      refine ⟨rfl, hN, rfl, rfl, rfl,
        workerUpd (f 0) ⟨0, true, ip, []⟩, rfl, ?_, ?_⟩
      · simp
      · simp
  | succ k ih =>
      obtain ⟨hi, hcle, hm, hg, hp, w, hw, hal, hpath⟩ := ih
      have hgc' : (applyCalls (freshExecutor N gcI cm ip) f (k + 1)).forceGcInterval ≠ 0 := by
        rw [hg]; exact hgc
      show PathInv N gcI ip
        (execute (applyCalls (freshExecutor N gcI cm ip) f (k + 1)) (f (k + 1)) none benign).1
      by_cases hlt : (applyCalls (freshExecutor N gcI cm ip) f (k + 1)).executionCount < N
      · have h := execute_steady _ w (f (k + 1)) none hi hw hal (by rw [hm]; exact hlt) hgc'
        rw [h.1]
        refine ⟨hi, ?_, hm, hg, hp,
          { workerUpd (f (k + 1)) w with sysPath := w.sysPath }, rfl, ?_, ?_⟩
        · show (applyCalls (freshExecutor N gcI cm ip) f (k + 1)).executionCount + 1 ≤ N
          omega
        · simpa using hal
        · exact hpath
      · have hge : (applyCalls (freshExecutor N gcI cm ip) f (k + 1)).maxExecutions ≤
            (applyCalls (freshExecutor N gcI cm ip) f (k + 1)).executionCount := by
          rw [hm]; omega
        have h := execute_restart _ (f (k + 1)) none hi hge hgc'
        rw [h.1]
        refine ⟨rfl, hN, hm, hg, hp,
          workerUpd (f (k + 1))
            ⟨(applyCalls (freshExecutor N gcI cm ip) f (k + 1)).nextPid, true,
             (applyCalls (freshExecutor N gcI cm ip) f (k + 1)).initPath, []⟩,
          rfl, ?_, ?_⟩
        · simp
        · simp [hp]

/-! ## Claim theorems -/

/-- C1: every call is evaluated in a fresh, empty binding namespace, so when
call 1 binds a name X and call 2 references X without rebinding it, call 2
returns a Failure record reporting X as an unresolved name. -/
theorem C1_fresh_namespace (s : ExecutorState) (X : String) (e : Expr)
    (rest : Snippet) (inp1 inp2 : Option String)
    (hgc : s.forceGcInterval ≠ 0) :
    isOkE (execute (execute s [Stmt.bind X e] inp1 benign).1
        (Stmt.exprStmt (Expr.var X) :: rest) inp2 benign).2 = true ∧
    okLookup "error" (execute (execute s [Stmt.bind X e] inp1 benign).1
        (Stmt.exprStmt (Expr.var X) :: rest) inp2 benign).2 =
      some (.str ("NameError: name " ++ X ++ " is not defined")) := by
  obtain ⟨w, hw, _⟩ := preCall_process_some s
  have h1 := execute_benign_eq s [Stmt.bind X e] inp1 w hgc hw
  have hs1 : (execute s [Stmt.bind X e] inp1 benign).1 =
      { preCall s with
          process := some { workerUpd [Stmt.bind X e] w with sysPath := w.sysPath } } := by
    rw [h1]
  have hgc1 : (execute s [Stmt.bind X e] inp1 benign).1.forceGcInterval ≠ 0 := by
    rw [hs1]
    show (preCall s).forceGcInterval ≠ 0
    rw [preCall_gc]; exact hgc
  obtain ⟨w2, hw2, _⟩ :=
    preCall_process_some (execute s [Stmt.bind X e] inp1 benign).1
  have h2 := execute_benign_eq (execute s [Stmt.bind X e] inp1 benign).1
    (Stmt.exprStmt (Expr.var X) :: rest) inp2 w2 hgc1 hw2
  rw [h2]
  exact ⟨rfl, rfl⟩

theorem C1_witness :
    isOkE (execute (execute (freshExecutor 1000 100 false [])
        [Stmt.bind "x" (Expr.lit 1)] none benign).1
        (Stmt.exprStmt (Expr.var "x") :: []) none benign).2 = true ∧
    okLookup "error" (execute (execute (freshExecutor 1000 100 false [])
        [Stmt.bind "x" (Expr.lit 1)] none benign).1
        (Stmt.exprStmt (Expr.var "x") :: []) none benign).2 =
      some (.str ("NameError: name " ++ "x" ++ " is not defined")) :=
  C1_fresh_namespace (freshExecutor 1000 100 false []) "x" (Expr.lit 1) []
    none none (by decide)

/-- C6: the spec's forced-GC policy disables GC when forcedGcEveryN is 0,
but the source evaluates the modulus unguarded, so with a zero interval
every execute call raises ZeroDivisionError instead of completing. -/
theorem C6_gc_zero_crash :
    (∀ k, shouldForceGcSpec 0 k = false) ∧
    (execute (freshExecutor 1000 0 false [])
        [Stmt.bind "result" (Expr.lit 1)] none benign).2 =
      .error .gcZeroDivision :=
  ⟨fun _ => rfl, rfl⟩

/-- C7 counterexample: immediately after a worker restart, the stats record
contains no restartCount field at all. -/
theorem C7_no_restart_count :
    lookupKey "restart_count"
      (getStats (applyCalls (freshExecutor 1 100 false []) constCall 2)) =
      none ∧
    keys (getStats (applyCalls (freshExecutor 1 100 false []) constCall 2)) =
      ["execution_count", "max_executions", "cleanup_modules",
       "process_alive"] := by decide

/-- C7 amended: stats() returns exactly the fields execution_count,
max_executions, cleanup_modules, process_alive; the executor keeps no
restart counter, so none is returned. -/
theorem C7_stats_fields (s : ExecutorState) :
    keys (getStats s) =
      ["execution_count", "max_executions", "cleanup_modules",
       "process_alive"] ∧
    lookupKey "execution_count" (getStats s) = some (.num s.executionCount) ∧
    lookupKey "max_executions" (getStats s) = some (.num s.maxExecutions) ∧
    lookupKey "process_alive" (getStats s) = some (.bool (processAlive s)) ∧
    lookupKey "restart_count" (getStats s) = none := by
  refine ⟨rfl, ?_, ?_, ?_, ?_⟩ <;> simp [getStats, lookupKey]

/-- C8 counterexample: when the READY sentinel never arrives, startup does
not fail — the read has no timeout in the source, so startup blocks. -/
theorem C8_no_timeout :
    startProcess (freshExecutor 1000 100 false []) HandshakeInput.silence =
      StartResult.blocked ∧
    (startProcess (freshExecutor 1000 100 false [])
        HandshakeInput.silence).isFailed = false := by decide

/-- C8 amended: startup blocks reading exactly one line; a line differing
from READY (including the empty line read at end of file) fails that start
attempt, leaving the initialization flag as it was (the worker is not marked
started); but when no line ever arrives the read blocks forever instead of
timing out. -/
theorem C8_handshake (s : ExecutorState) (l : String)
    (hl : stripLine l ≠ "READY") :
    startProcess s (.line l) = .startupFailed (spawnWorker s) ∧
    (spawnWorker s).inited = s.inited ∧
    startProcess s .eof = .startupFailed (spawnWorker s) ∧
    startProcess s (.line "READY\n") = .started (startOk s) ∧
    startProcess s .silence = .blocked := by
  refine ⟨?_, rfl, rfl, ?_, rfl⟩
  · simp only [startProcess]
    rw [if_neg hl]
  · simp only [startProcess]
    rw [if_pos (show stripLine "READY\n" = "READY" from rfl)]
    rfl

theorem C8_witness :
    startProcess (freshExecutor 2 100 false []) (.line "BOOM") =
      .startupFailed (spawnWorker (freshExecutor 2 100 false [])) ∧
    (spawnWorker (freshExecutor 2 100 false [])).inited =
      (freshExecutor 2 100 false []).inited ∧
    startProcess (freshExecutor 2 100 false []) .eof =
      .startupFailed (spawnWorker (freshExecutor 2 100 false [])) ∧
    startProcess (freshExecutor 2 100 false []) (.line "READY\n") =
      .started (startOk (freshExecutor 2 100 false [])) ∧
    startProcess (freshExecutor 2 100 false []) .silence = .blocked :=
  C8_handshake (freshExecutor 2 100 false []) "BOOM" (by decide)

/-- C9 counterexample: an execute call with empty code gets back the bare
single-field error record, which matches neither claimed response shape, yet
the supervisor returns it as a normal success and does not mark the worker
dead. -/
theorem C9_bare_error_response :
    (execute (freshExecutor 1000 100 false []) [] none benign).2 =
      .ok [("error", JVal.str "No code provided"),
           ("exit_code", JVal.num 0), ("execution_count", JVal.num 1)] ∧
    (execute (freshExecutor 1000 100 false []) [] none benign).1.inited =
      true ∧
    keys [("error", JVal.str "No code provided")] = ["error"] :=
  ⟨rfl, rfl, rfl⟩

/-- C9 amended: a worker response line is one of three shapes — the success
record, the evaluation-failure record, or the bare error record for empty
code; the supervisor performs no field validation (any parseable response is
returned as a completed call with the worker left alive), and only a closed
stream where a response was expected is treated like a worker crash. -/
theorem C9_response_shapes (s : ExecutorState) (c : Snippet)
    (inp : Option String) (hgc : s.forceGcInterval ≠ 0) :
    (keys (responseOf c) = ["stdout", "stderr", "locals"] ∨
     keys (responseOf c) = ["error", "traceback", "stdout", "stderr"] ∨
     keys (responseOf c) = ["error"]) ∧
    isOkE (execute s c inp benign).2 = true ∧
    (execute s c inp benign).1.inited = true ∧
    (execute s c inp ⟨false, true⟩).2 = .error .executionFailed ∧
    (execute s c inp ⟨false, true⟩).1.inited = false := by
  obtain ⟨w, hw, _⟩ := preCall_process_some s
  have hok := execute_benign_eq s c inp w hgc hw
  have heof := execute_readEof s c inp ⟨false, true⟩ w hgc rfl rfl hw
  refine ⟨?_, ?_, ?_, ?_, ?_⟩
  · rcases responseOf_cases c with ⟨o, l, h⟩ | ⟨e, o, h⟩ | h <;>
      rw [h] <;> simp [keys]
  · rw [hok]; rfl
  · rw [hok]
    show (preCall s).inited = true
    exact preCall_inited s
  · rw [heof]
  · rw [heof]

theorem C9_witness :
    (keys (responseOf [Stmt.bind "x" (Expr.lit 2)]) =
       ["stdout", "stderr", "locals"] ∨
     keys (responseOf [Stmt.bind "x" (Expr.lit 2)]) =
       ["error", "traceback", "stdout", "stderr"] ∨
     keys (responseOf [Stmt.bind "x" (Expr.lit 2)]) = ["error"]) ∧
    isOkE (execute (freshExecutor 1000 100 false [])
        [Stmt.bind "x" (Expr.lit 2)] none benign).2 = true ∧
    (execute (freshExecutor 1000 100 false [])
        [Stmt.bind "x" (Expr.lit 2)] none benign).1.inited = true ∧
    (execute (freshExecutor 1000 100 false [])
        [Stmt.bind "x" (Expr.lit 2)] none ⟨false, true⟩).2 =
      .error .executionFailed ∧
    (execute (freshExecutor 1000 100 false [])
        [Stmt.bind "x" (Expr.lit 2)] none ⟨false, true⟩).1.inited = false :=
  C9_response_shapes (freshExecutor 1000 100 false [])
    [Stmt.bind "x" (Expr.lit 2)] none (by decide)

/-- C10: the empty string as user input behaves exactly like no input: the
request omits the input field in both cases, and execute sends the same
request, so the two calls are indistinguishable. -/
theorem C10_empty_input (c : Snippet) (b : Bool) (s : ExecutorState)
    (env : CallEnv) :
    buildRequest c (some "") b = buildRequest c none b ∧
    requestKeys (buildRequest c (some "") b) = ["code", "cleanup_modules"] ∧
    execute s c (some "") env = execute s c none env := by
  have hb : ∀ b', buildRequest c (some "") b' = buildRequest c none b' := by
    intro b'
    unfold buildRequest
    simp
  refine ⟨hb b, by unfold requestKeys buildRequest; simp, ?_⟩
  unfold execute
  simp only [hb]

/-- C2: with maxExecutionsBeforeRestart = N (N at least 1), the worker's
process identity is unchanged through calls 1..N and changes exactly once
between call N and call N+1, the execution counter restarts, and the
outcome of call N+1 carries executionCount 1. -/
theorem C2_restart_after_budget (N gcI : Nat) (cm : Bool) (ip : List String)
    (f : Nat → Snippet) (hN : 1 ≤ N) (hgc : gcI ≠ 0) :
    (∀ k, 1 ≤ k → k ≤ N →
       pidOf (applyCalls (freshExecutor N gcI cm ip) f k) = some 0 ∧
       (applyCalls (freshExecutor N gcI cm ip) f k).executionCount = k) ∧
    pidOf (applyCalls (freshExecutor N gcI cm ip) f (N + 1)) = some 1 ∧
    (applyCalls (freshExecutor N gcI cm ip) f (N + 1)).executionCount = 1 ∧
    okLookup "execution_count"
      (execute (applyCalls (freshExecutor N gcI cm ip) f N)
        (f N) none benign).2 = some (.num 1) := by
  have hrun := steadyRun N gcI cm ip f hN hgc
  obtain ⟨hi, hc, hn, hm, hg, hp, w, hw, hpid, hal, hpath⟩ := hrun N hN le_rfl
  have hge : (applyCalls (freshExecutor N gcI cm ip) f N).maxExecutions ≤
      (applyCalls (freshExecutor N gcI cm ip) f N).executionCount := by
    rw [hm, hc]
  have h := execute_restart (applyCalls (freshExecutor N gcI cm ip) f N)
    (f N) none hi hge (by rw [hg]; exact hgc)
  refine ⟨?_, ?_, ?_, ?_⟩
  · intro k hk1 hkN
    obtain ⟨_, hc', _, _, _, _, w', hw', hpid', _, _⟩ := hrun k hk1 hkN
    exact ⟨by simp [pidOf, hw', hpid'], hc'⟩
  · show pidOf (execute (applyCalls (freshExecutor N gcI cm ip) f N)
      (f N) none benign).1 = some 1
    rw [h.1]
    simp [pidOf, hn]
  · show (execute (applyCalls (freshExecutor N gcI cm ip) f N)
      (f N) none benign).1.executionCount = 1
    rw [h.1]
  · rw [h.2]
    show lookupKey "execution_count"
      (responseOf (f N) ++
        [("exit_code", JVal.num 0), ("execution_count", JVal.num 1)]) =
      some (.num 1)
    exact (lookupKey_meta (f N) 1).1

theorem C2_witness :
    pidOf (applyCalls (freshExecutor 2 100 false []) constCall 2) = some 0 ∧
    (applyCalls (freshExecutor 2 100 false []) constCall 2).executionCount = 2 ∧
    pidOf (applyCalls (freshExecutor 2 100 false []) constCall 3) = some 1 ∧
    (applyCalls (freshExecutor 2 100 false []) constCall 3).executionCount = 1 ∧
    okLookup "execution_count"
      (execute (applyCalls (freshExecutor 2 100 false []) constCall 2)
        (constCall 2) none benign).2 = some (.num 1) := by
  obtain ⟨h1, h2, h3, h4⟩ :=
    C2_restart_after_budget 2 100 false [] constCall (by decide) (by decide)
  exact ⟨(h1 2 (by decide) (by decide)).1, (h1 2 (by decide) (by decide)).2,
    h2, h3, h4⟩

/-- C3: a snippet that raises returns a normal Failure outcome carrying the
message, the trace, and the stdout captured before the exception; the error
never escapes the supervisor as an exception, the handle stays started, and
a following unrelated call succeeds. -/
theorem C3_eval_error_as_failure (s : ExecutorState) (inp : Option String)
    (hgc : s.forceGcInterval ≠ 0) :
    isOkE (execute s [Stmt.bind "r" (Expr.div (Expr.lit 1) (Expr.lit 0))]
        inp benign).2 = true ∧
    okLookup "error" (execute s
        [Stmt.bind "r" (Expr.div (Expr.lit 1) (Expr.lit 0))] inp benign).2 =
      some (.str "division by zero") ∧
    okLookup "traceback" (execute s
        [Stmt.bind "r" (Expr.div (Expr.lit 1) (Expr.lit 0))] inp benign).2 =
      some (.str "Traceback (most recent call last): division by zero") ∧
    okLookup "stdout" (execute s
        [Stmt.bind "r" (Expr.div (Expr.lit 1) (Expr.lit 0))] inp benign).2 =
      some (.str "") ∧
    okLookup "stderr" (execute s
        [Stmt.bind "r" (Expr.div (Expr.lit 1) (Expr.lit 0))] inp benign).2 =
      some (.str "") ∧
    okLookup "stdout" (execute s
        [Stmt.print (Expr.lit 7),
         Stmt.bind "r" (Expr.div (Expr.lit 1) (Expr.lit 0))] inp benign).2 =
      some (.str "7") ∧
    okLookup "error" (execute s
        [Stmt.print (Expr.lit 7),
         Stmt.bind "r" (Expr.div (Expr.lit 1) (Expr.lit 0))] inp benign).2 =
      some (.str "division by zero") ∧
    (execute s [Stmt.bind "r" (Expr.div (Expr.lit 1) (Expr.lit 0))]
        inp benign).1.inited = true ∧
    isOkE (execute (execute s
        [Stmt.bind "r" (Expr.div (Expr.lit 1) (Expr.lit 0))] inp benign).1
        [Stmt.bind "x" (Expr.lit 2)] none benign).2 = true ∧
    okLookup "error" (execute (execute s
        [Stmt.bind "r" (Expr.div (Expr.lit 1) (Expr.lit 0))] inp benign).1
        [Stmt.bind "x" (Expr.lit 2)] none benign).2 = none ∧
    okLookup "locals" (execute (execute s
        [Stmt.bind "r" (Expr.div (Expr.lit 1) (Expr.lit 0))] inp benign).1
        [Stmt.bind "x" (Expr.lit 2)] none benign).2 =
      some (.obj [("x", "2")]) := by
  obtain ⟨w, hw, _⟩ := preCall_process_some s
  have h1 := execute_benign_eq s
    [Stmt.bind "r" (Expr.div (Expr.lit 1) (Expr.lit 0))] inp w hgc hw
  have h2 := execute_benign_eq s
    [Stmt.print (Expr.lit 7),
     Stmt.bind "r" (Expr.div (Expr.lit 1) (Expr.lit 0))] inp w hgc hw
  have hgc1 : (execute s
      [Stmt.bind "r" (Expr.div (Expr.lit 1) (Expr.lit 0))]
      inp benign).1.forceGcInterval ≠ 0 := by
    rw [h1]
    show (preCall s).forceGcInterval ≠ 0
    rw [preCall_gc]; exact hgc
  obtain ⟨w2, hw2, _⟩ := preCall_process_some (execute s
    [Stmt.bind "r" (Expr.div (Expr.lit 1) (Expr.lit 0))] inp benign).1
  have h3 := execute_benign_eq (execute s
    [Stmt.bind "r" (Expr.div (Expr.lit 1) (Expr.lit 0))] inp benign).1
    [Stmt.bind "x" (Expr.lit 2)] none w2 hgc1 hw2
  refine ⟨?_, ?_, ?_, ?_, ?_, ?_, ?_, ?_, ?_, ?_, ?_⟩
  · rw [h1]; rfl
  · rw [h1]; rfl
  · rw [h1]; rfl
  · rw [h1]; rfl
  · rw [h1]; rfl
  · rw [h2]; rfl
  · rw [h2]; rfl
  · rw [h1]
    show (preCall s).inited = true
    exact preCall_inited s
  · rw [h3]; rfl
  · rw [h3]; rfl
  · rw [h3]; rfl

theorem C3_witness :
    isOkE (execute (freshExecutor 1000 100 false [])
        [Stmt.bind "r" (Expr.div (Expr.lit 1) (Expr.lit 0))]
        none benign).2 = true ∧
    okLookup "error" (execute (freshExecutor 1000 100 false [])
        [Stmt.bind "r" (Expr.div (Expr.lit 1) (Expr.lit 0))]
        none benign).2 = some (.str "division by zero") ∧
    okLookup "traceback" (execute (freshExecutor 1000 100 false [])
        [Stmt.bind "r" (Expr.div (Expr.lit 1) (Expr.lit 0))]
        none benign).2 =
      some (.str "Traceback (most recent call last): division by zero") ∧
    okLookup "stdout" (execute (freshExecutor 1000 100 false [])
        [Stmt.bind "r" (Expr.div (Expr.lit 1) (Expr.lit 0))]
        none benign).2 = some (.str "") ∧
    okLookup "stderr" (execute (freshExecutor 1000 100 false [])
        [Stmt.bind "r" (Expr.div (Expr.lit 1) (Expr.lit 0))]
        none benign).2 = some (.str "") ∧
    okLookup "stdout" (execute (freshExecutor 1000 100 false [])
        [Stmt.print (Expr.lit 7),
         Stmt.bind "r" (Expr.div (Expr.lit 1) (Expr.lit 0))]
        none benign).2 = some (.str "7") ∧
    okLookup "error" (execute (freshExecutor 1000 100 false [])
        [Stmt.print (Expr.lit 7),
         Stmt.bind "r" (Expr.div (Expr.lit 1) (Expr.lit 0))]
        none benign).2 = some (.str "division by zero") ∧
    (execute (freshExecutor 1000 100 false [])
        [Stmt.bind "r" (Expr.div (Expr.lit 1) (Expr.lit 0))]
        none benign).1.inited = true ∧
    isOkE (execute (execute (freshExecutor 1000 100 false [])
        [Stmt.bind "r" (Expr.div (Expr.lit 1) (Expr.lit 0))] none benign).1
        [Stmt.bind "x" (Expr.lit 2)] none benign).2 = true ∧
    okLookup "error" (execute (execute (freshExecutor 1000 100 false [])
        [Stmt.bind "r" (Expr.div (Expr.lit 1) (Expr.lit 0))] none benign).1
        [Stmt.bind "x" (Expr.lit 2)] none benign).2 = none ∧
    okLookup "locals" (execute (execute (freshExecutor 1000 100 false [])
        [Stmt.bind "r" (Expr.div (Expr.lit 1) (Expr.lit 0))] none benign).1
        [Stmt.bind "x" (Expr.lit 2)] none benign).2 =
      some (.obj [("x", "2")]) :=
  C3_eval_error_as_failure (freshExecutor 1000 100 false []) none (by decide)

/-- C4: every call restores the module search path to its value recorded at
the start of the call (undoing appended entries), whether or not evaluation
raised; hence over any sequence of calls — including path-appending ones —
the search path observed at the start of call N+1 equals the one observed at
the start of call 1. -/
theorem C4_search_path_reset (N gcI : Nat) (cm : Bool) (ip : List String)
    (f : Nat → Snippet) (hN : 1 ≤ N) (hgc : gcI ≠ 0) :
    (∀ code path, (runCodeWithReset code path).2 = path) ∧
    (∀ k, pathOf (applyCalls (freshExecutor N gcI cm ip) f (k + 1)) =
      some ip) := by
  refine ⟨fun code path => runCodeWithReset_path code path, ?_⟩
  intro k
  obtain ⟨_, _, _, _, _, w, hw, _, hpath⟩ := pathRun N gcI cm ip f hN hgc k
  simp [pathOf, hw, hpath]

theorem C4_witness :
    (runCodeWithReset [Stmt.appendPath "q"] ["p"]).2 = ["p"] ∧
    pathOf (applyCalls (freshExecutor 2 100 false ["p"]) appendCall 3) =
      some ["p"] := by
  obtain ⟨h1, h2⟩ :=
    C4_search_path_reset 2 100 false ["p"] appendCall (by decide) (by decide)
  exact ⟨h1 [Stmt.appendPath "q"] ["p"], h2 2⟩

/-- C5: a pipe-write failure or an EOF on the response read marks the handle
dead and fails that call with a supervisor-level error without retrying the
request; the next call transparently restarts the worker and returns the
correct result (the fresh worker evaluates only the new snippet), and the
same holds when the worker was killed externally between calls. -/
theorem C5_pipe_failure_recovery (s : ExecutorState) (w : Worker)
    (c c2 : Snippet) (inp : Option String)
    (h1 : s.inited = true) (hw : s.process = some w) (hal : w.alive = true)
    (h3 : s.executionCount < s.maxExecutions) (hgc : s.forceGcInterval ≠ 0)
    (hc2 : c2 ≠ []) :
    ((execute s c inp ⟨true, false⟩).2 = .error .executionFailed ∧
     (execute s c inp ⟨true, false⟩).1.inited = false ∧
     historyOf (execute s c inp ⟨true, false⟩).1 = historyOf s) ∧
    ((execute s c inp ⟨false, true⟩).2 = .error .executionFailed ∧
     (execute s c inp ⟨false, true⟩).1.inited = false) ∧
    ((execute (execute s c inp ⟨true, false⟩).1 c2 none benign).2 =
       .ok (responseOf c2 ++
         [("exit_code", JVal.num 0), ("execution_count", JVal.num 1)]) ∧
     historyOf (execute (execute s c inp ⟨true, false⟩).1 c2 none benign).1 =
       some [c2]) ∧
    ((execute (killWorker s) c2 none benign).2 =
       .ok (responseOf c2 ++
         [("exit_code", JVal.num 0), ("execution_count", JVal.num 1)]) ∧
     pidOf (execute (killWorker s) c2 none benign).1 = some s.nextPid) := by
  have hpre := preCall_steady s w h1 hw hal h3
  have hwf := execute_writeFails s c inp ⟨true, false⟩ hgc rfl
  have hww : (preCall s).process = some w := by rw [hpre]; exact hw
  have heof := execute_readEof s c inp ⟨false, true⟩ w hgc rfl rfl hww
  have hs'i : (execute s c inp ⟨true, false⟩).1.inited = false := by
    rw [hwf]
  have hmax' : 1 ≤ (execute s c inp ⟨true, false⟩).1.maxExecutions := by
    rw [hwf]
    show 1 ≤ (preCall s).maxExecutions
    rw [preCall_max]; omega
  have hgc' : (execute s c inp ⟨true, false⟩).1.forceGcInterval ≠ 0 := by
    rw [hwf]
    show (preCall s).forceGcInterval ≠ 0
    rw [preCall_gc]; exact hgc
  have hrec := execute_fresh (execute s c inp ⟨true, false⟩).1 c2 none
    hs'i hmax' hgc'
  have hd1 : (killWorker s).inited = true := h1
  have hdw : (killWorker s).process = some { w with alive := false } := by
    simp [killWorker, hw]
  have hd := execute_dead (killWorker s) { w with alive := false } c2 none
    hd1 hdw rfl h3 hgc
  refine ⟨⟨?_, ?_, ?_⟩, ⟨?_, ?_⟩, ⟨?_, ?_⟩, ⟨?_, ?_⟩⟩
  · rw [hwf]
  · rw [hwf]
  · rw [hwf]
    show historyOf { preCall s with inited := false } = historyOf s
    unfold historyOf
    rw [hpre]
  · rw [heof]
  · rw [heof]
  · exact hrec.2
  · rw [hrec.1]
    simp [historyOf, workerUpd, hc2]
  · exact hd.2
  · rw [hd.1]
    simp [pidOf]
    rfl

theorem C5_witness :
    ((execute (execute (freshExecutor 5 100 false [])
        [Stmt.bind "a" (Expr.lit 1)] none benign).1
        [Stmt.bind "b" (Expr.lit 2)] none ⟨true, false⟩).2 =
       .error .executionFailed ∧
     (execute (execute (freshExecutor 5 100 false [])
        [Stmt.bind "a" (Expr.lit 1)] none benign).1
        [Stmt.bind "b" (Expr.lit 2)] none ⟨true, false⟩).1.inited = false ∧
     historyOf (execute (execute (freshExecutor 5 100 false [])
        [Stmt.bind "a" (Expr.lit 1)] none benign).1
        [Stmt.bind "b" (Expr.lit 2)] none ⟨true, false⟩).1 =
       historyOf (execute (freshExecutor 5 100 false [])
        [Stmt.bind "a" (Expr.lit 1)] none benign).1) ∧
    ((execute (execute (freshExecutor 5 100 false [])
        [Stmt.bind "a" (Expr.lit 1)] none benign).1
        [Stmt.bind "b" (Expr.lit 2)] none ⟨false, true⟩).2 =
       .error .executionFailed ∧
     (execute (execute (freshExecutor 5 100 false [])
        [Stmt.bind "a" (Expr.lit 1)] none benign).1
        [Stmt.bind "b" (Expr.lit 2)] none ⟨false, true⟩).1.inited = false) ∧
    ((execute (execute (execute (freshExecutor 5 100 false [])
        [Stmt.bind "a" (Expr.lit 1)] none benign).1
        [Stmt.bind "b" (Expr.lit 2)] none ⟨true, false⟩).1
        [Stmt.bind "x" (Expr.lit 3)] none benign).2 =
       .ok (responseOf [Stmt.bind "x" (Expr.lit 3)] ++
         [("exit_code", JVal.num 0), ("execution_count", JVal.num 1)]) ∧
     historyOf (execute (execute (execute (freshExecutor 5 100 false [])
        [Stmt.bind "a" (Expr.lit 1)] none benign).1
        [Stmt.bind "b" (Expr.lit 2)] none ⟨true, false⟩).1
        [Stmt.bind "x" (Expr.lit 3)] none benign).1 =
       some [[Stmt.bind "x" (Expr.lit 3)]]) ∧
    ((execute (killWorker (execute (freshExecutor 5 100 false [])
        [Stmt.bind "a" (Expr.lit 1)] none benign).1)
        [Stmt.bind "x" (Expr.lit 3)] none benign).2 =
       .ok (responseOf [Stmt.bind "x" (Expr.lit 3)] ++
         [("exit_code", JVal.num 0), ("execution_count", JVal.num 1)]) ∧
     pidOf (execute (killWorker (execute (freshExecutor 5 100 false [])
        [Stmt.bind "a" (Expr.lit 1)] none benign).1)
        [Stmt.bind "x" (Expr.lit 3)] none benign).1 =
       some (execute (freshExecutor 5 100 false [])
        [Stmt.bind "a" (Expr.lit 1)] none benign).1.nextPid) :=
  C5_pipe_failure_recovery
    (execute (freshExecutor 5 100 false [])
      [Stmt.bind "a" (Expr.lit 1)] none benign).1
    ⟨0, true, [], [[Stmt.bind "a" (Expr.lit 1)]]⟩
    [Stmt.bind "b" (Expr.lit 2)] [Stmt.bind "x" (Expr.lit 3)] none
    (by decide) (by decide) (by decide) (by decide) (by decide) (by decide)

end AgentGateway
